import Mathlib

/-
  Verification development for the gotest repository's authorization core:
  the OAuth2-style token issuance/validation/revocation engine
  (internal/oauth/delivery/oauth.delivery.go, pkg/utils/jwt.go, the Mongo
  token/client/user repositories) and the RBAC permission resolver
  (internal/permission/usecase/permission.usecase.go and the user-role
  repository).

  The Go code is shallowly embedded: MongoDB collections become Lean lists,
  repository calls become pure functions over those lists, `time.Time` becomes
  a `Nat` timestamp, and the stateful use-case methods become explicit
  state-passing functions.  Fallible Go functions return `Except String`,
  carrying the exact error strings of the source.  A signed JWT is modelled as
  its claims together with the secret it was signed with: HMAC-SHA256 signing
  is collision-free for our purposes, so signature verification succeeds
  exactly when the verifier's secret equals the signer's.  Infrastructure
  failures of MongoDB (network errors, timeouts) are not modelled; every
  repository operation behaves as its documented success/not-found semantics.
-/

namespace GoTest

/-! ## JWT model (pkg/utils/jwt.go) -/

/-- Claims embedded in a JWT, as in `utils.Claims`: user id, role, scopes,
plus the registered `exp` and `iat` claims (seconds as `Nat`). -/
structure JwtClaims where
  userID : String
  role : String
  scopes : List String
  expiresAt : Nat
  issuedAt : Nat
deriving DecidableEq, Repr

/-- A signed JWT: its claims together with the secret used to sign it.
`signedWith` models the HMAC-SHA256 signature: verification under `secret`
succeeds exactly when `signedWith = secret`. -/
structure Jwt where
  claims : JwtClaims
  signedWith : String
deriving DecidableEq, Repr

/-- `utils.GenerateJWT`: build the claims from userID/role/scopes with
`exp = now + expiration`, `iat = now`, and sign with `secret`.  (The Go
version can only fail inside the signing library, which cannot happen for
these serializable claims, so the model is total.) -/
def generateJWT (userID role : String) (scopes : List String) (secret : String)
    (now expiration : Nat) : Jwt :=
  { claims := { userID := userID, role := role, scopes := scopes,
                expiresAt := now + expiration, issuedAt := now },
    signedWith := secret }

/-- `utils.ValidateJWT`: `jwt.Parse` validates the registered claims (the
token is expired when `now > exp`) and verifies the HMAC signature; on
success the Go code extracts `user_id` and returns the claim map. -/
def validateJWT (tok : Jwt) (secret : String) (now : Nat) :
    Except String (String × JwtClaims) :=
  if tok.claims.expiresAt < now then .error "Token is expired"
  else if tok.signedWith ≠ secret then .error "signature is invalid"
  else .ok (tok.claims.userID, tok.claims)

/-! ## OAuth data model (internal/oauth/domain) -/

/-- `domain.Token`: a stored token pair.  The access token is kept in its
structured JWT form (the Go string serialization is injective on it). -/
structure Token where
  accessToken : Jwt
  refreshToken : String
  userID : String
  clientID : String
  scopes : List String
  expiresAt : Nat
  refreshExpiresAt : Nat
  createdAt : Nat
deriving DecidableEq, Repr

/-- `domain.Client` (fields relevant to the engine). -/
structure Client where
  clientID : String
  clientSecret : String
  grantTypes : List String
  scopes : List String
deriving DecidableEq, Repr

/-- `userDomain.User` (fields relevant to the engine).  `CreatedAt` and
`UpdatedAt` bookkeeping timestamps are omitted. -/
structure User where
  id : String
  email : String
  password : String
  role : String
  status : String
  refreshToken : String
deriving DecidableEq, Repr

def userStatusActive : String := "active"
def userStatusInactive : String := "inactive"

def grantTypePassword : String := "password"
def grantTypeRefreshToken : String := "refresh_token"
def grantTypeClientCredentials : String := "client_credentials"
def tokenTypeBearer : String := "Bearer"

/-- `domain.OAuthRequest`. -/
structure OAuthRequest where
  grantType : String
  clientID : String
  clientSecret : String
  username : String
  password : String
  refreshToken : String
  scope : String
deriving DecidableEq, Repr

/-- `domain.OAuthResponse`.  The access token is kept structured. -/
structure OAuthResponse where
  accessToken : Jwt
  tokenType : String
  expiresIn : Nat
  refreshToken : String
  scope : String
deriving DecidableEq, Repr

/-- The MongoDB-backed system state: the client, token and user collections. -/
structure SysState where
  clients : List Client
  tokens : List Token
  users : List User
deriving DecidableEq, Repr

/-- Configuration handed to `NewOAuthUseCase` in main.go. -/
structure OAuthConfig where
  jwtSecret : String
  tokenExp : Nat
  refreshExp : Nat
deriving DecidableEq, Repr

/-- main.go development configuration: 15 minutes / 1 hour (in seconds). -/
def devConfig : OAuthConfig :=
  { jwtSecret := "mi_secret_super_seguro", tokenExp := 15 * 60, refreshExp := 60 * 60 }

/-- main.go production configuration: 30 days / 90 days (in seconds). -/
def prodConfig : OAuthConfig :=
  { jwtSecret := "mi_secret_super_seguro",
    tokenExp := 30 * 24 * 60 * 60, refreshExp := 90 * 24 * 60 * 60 }

/-! ## Generic list helpers for the Mongo single-document operations -/

/-- `DeleteOne`: remove the first element matching the filter (removing
nothing, without error, when no document matches). -/
def removeFirstBy {α : Type} (p : α → Bool) : List α → List α
  | [] => []
  | x :: xs => if p x then xs else x :: removeFirstBy p xs

/-- `UpdateOne`: rewrite the first element matching the filter (a no-op,
without error, when no document matches). -/
def updateFirstBy {α : Type} (p : α → Bool) (f : α → α) : List α → List α
  | [] => []
  | x :: xs => if p x then f x :: xs else x :: updateFirstBy p f xs

/-! ## Repositories -/

/-- `mongoTokenRepository.GetByAccessToken`. -/
def getByAccessToken (tokens : List Token) (a : Jwt) : Except String Token :=
  match tokens.find? (fun t => t.accessToken == a) with
  | some t => .ok t
  | none => .error "token no encontrado"

/-- `mongoTokenRepository.GetByRefreshToken`. -/
def getByRefreshToken (tokens : List Token) (rt : String) : Except String Token :=
  match tokens.find? (fun t => t.refreshToken == rt) with
  | some t => .ok t
  | none => .error "token no encontrado"

/-- `mongoTokenRepository.DeleteByRefreshToken`: a Mongo `DeleteOne`, which
reports success (deleted count 0) when nothing matches. -/
def deleteByRefreshToken (tokens : List Token) (rt : String) : List Token :=
  removeFirstBy (fun t => t.refreshToken == rt) tokens

/-- `mongoClientRepository.ValidateClient`. -/
def validateClient (clients : List Client) (cid csec : String) : Except String Client :=
  match clients.find? (fun c => c.clientID == cid && c.clientSecret == csec) with
  | some c => .ok c
  | none => .error "credenciales de cliente inválidas"

/-- `mongoUserRepository.GetByID` (through `userUseCase.GetUser`; a malformed
ObjectID hex is folded into the not-found case). -/
def getUserByID (users : List User) (uid : String) : Except String User :=
  match users.find? (fun u => u.id == uid) with
  | some u => .ok u
  | none => .error "usuario no encontrado"

/-- `mongoUserRepository.GetByRefreshToken`. -/
def getUserByRefreshTokenRepo (users : List User) (rt : String) : Except String User :=
  match users.find? (fun u => u.refreshToken == rt) with
  | some u => .ok u
  | none => .error "token de refresco inválido"

/-- `mongoUserRepository.UpdateRefreshToken`: `UpdateOne` on `_id`, setting
the `refresh_token` field. -/
def updateRefreshTokenRepo (users : List User) (uid rt : String) : List User :=
  updateFirstBy (fun u => u.id == uid) (fun u => { u with refreshToken := rt }) users

/-- `userUseCase.ValidateCredentials`: look up by email, require active
status, then compare the password (bcrypt comparison modelled as equality on
the stored secret). -/
def validateCredentials (users : List User) (email pwd : String) : Except String User :=
  match users.find? (fun u => u.email == email) with
  | none => .error "credenciales inválidas"
  | some u =>
    if u.status ≠ userStatusActive then .error "usuario inactivo"
    else if u.password ≠ pwd then .error "credenciales inválidas"
    else .ok u

/-! ## Token issuance engine (internal/oauth/delivery/oauth.delivery.go)

The engine's nondeterministic environment inputs are made explicit
parameters: `now` is the current time and `freshRT` is the high-entropy
random string produced by `utils.GenerateRandomToken(32)`.
An `.error` result of a use-case function means the Go method returned an
error before performing any repository write, so the caller's store is
unchanged; this is faithful to the source, where every modelled error path
returns before the first write. -/

/-- Helper for `splitOnSpace`: consume the characters, cutting at each
space; `acc` holds the current piece reversed. -/
def splitOnSpaceAux : List Char → List Char → List String
  | [], acc => [⟨acc.reverse⟩]
  | c :: cs, acc =>
    if c = ' ' then ⟨acc.reverse⟩ :: splitOnSpaceAux cs []
    else splitOnSpaceAux cs (c :: acc)

/-- Go's `strings.Split(s, " ")`: split at every space, keeping empty
pieces (`Split("", " ") = [""]`). -/
def splitOnSpace (s : String) : List String := splitOnSpaceAux s.data []

/-- The scope-filtering loop of `GenerateToken`: the requested scopes that
survive the client-allowance check (none when no scope string was sent). -/
def requestedScopes (reqScope : String) (client : Client) : List String :=
  if reqScope ≠ "" then
    (splitOnSpace reqScope).filter (fun s => client.scopes.contains s)
  else []

/-- `oauthUseCase.GenerateToken`, the scope-computation step: filter the
space-delimited requested scopes by the client's allowance, and fall back to
the client's full scope list when nothing valid was requested. -/
def computeScopes (reqScope : String) (client : Client) : List String :=
  if (requestedScopes reqScope client).isEmpty then client.scopes
  else requestedScopes reqScope client

/-- `oauthUseCase.handlePasswordGrant`. -/
def handlePasswordGrant (cfg : OAuthConfig) (st : SysState) (now : Nat)
    (freshRT : String) (req : OAuthRequest) (client : Client)
    (scopes : List String) : Except String (OAuthResponse × SysState) :=
  if req.username = "" ∨ req.password = "" then
    .error "nombre de usuario y contraseña requeridos"
  else match validateCredentials st.users req.username req.password with
  | .error e => .error e
  | .ok user =>
    let accessToken := generateJWT user.id user.role scopes cfg.jwtSecret now cfg.tokenExp
    let tok : Token :=
      { accessToken := accessToken, refreshToken := freshRT, userID := user.id,
        clientID := client.clientID, scopes := scopes,
        expiresAt := now + cfg.tokenExp, refreshExpiresAt := now + cfg.refreshExp,
        createdAt := now }
    let st2 : SysState :=
      { st with tokens := st.tokens ++ [tok],
                users := updateRefreshTokenRepo st.users user.id freshRT }
    .ok ({ accessToken := accessToken, tokenType := tokenTypeBearer,
           expiresIn := cfg.tokenExp, refreshToken := freshRT,
           scope := String.intercalate " " scopes }, st2)

/-- `oauthUseCase.ValidateRefreshToken`: store lookup, refresh-expiry check
(`RefreshExpiresAt.Before(now)`), then the associated subject's status. -/
def validateRefreshToken (st : SysState) (now : Nat) (rt : String) :
    Except String Token :=
  match getByRefreshToken st.tokens rt with
  | .error _ => .error "refresh token inválido o no encontrado"
  | .ok tok =>
    if tok.refreshExpiresAt < now then .error "refresh token expirado"
    else if tok.userID ≠ "" then
      match getUserByID st.users tok.userID with
      | .error _ => .error "usuario no encontrado"
      | .ok user =>
        if user.status ≠ userStatusActive then .error "usuario inactivo"
        else .ok tok
    else .ok tok

/-- `oauthUseCase.handleRefreshTokenGrant`: validate the old pair, check
client ownership, keep the incoming scopes unless they are empty (in which
case the old pair's scopes are reused), then rotate: delete the old pair,
insert the new one, and update the subject's refresh pointer. -/
def handleRefreshTokenGrant (cfg : OAuthConfig) (st : SysState) (now : Nat)
    (freshRT : String) (req : OAuthRequest) (client : Client)
    (scopes0 : List String) : Except String (OAuthResponse × SysState) :=
  if req.refreshToken = "" then .error "refresh token requerido"
  else match validateRefreshToken st now req.refreshToken with
  | .error e => .error e
  | .ok oldToken =>
    if oldToken.clientID ≠ client.clientID then
      .error "refresh token no válido para este cliente"
    else
      let scopes := if scopes0.isEmpty then oldToken.scopes else scopes0
      let accessToken := generateJWT oldToken.userID "" scopes cfg.jwtSecret now cfg.tokenExp
      let tok : Token :=
        { accessToken := accessToken, refreshToken := freshRT,
          userID := oldToken.userID, clientID := client.clientID,
          scopes := scopes, expiresAt := now + cfg.tokenExp,
          refreshExpiresAt := now + cfg.refreshExp, createdAt := now }
      let st2 : SysState :=
        { st with
            tokens := deleteByRefreshToken st.tokens req.refreshToken ++ [tok],
            users := if oldToken.userID ≠ "" then
                updateRefreshTokenRepo st.users oldToken.userID freshRT
              else st.users }
      .ok ({ accessToken := accessToken, tokenType := tokenTypeBearer,
             expiresIn := cfg.tokenExp, refreshToken := freshRT,
             scope := String.intercalate " " scopes }, st2)

/-- `oauthUseCase.handleClientCredentialsGrant`: an access token only; the
stored pair's refresh fields keep their Go zero values. -/
def handleClientCredentialsGrant (cfg : OAuthConfig) (st : SysState) (now : Nat)
    (client : Client) (scopes : List String) :
    Except String (OAuthResponse × SysState) :=
  let accessToken := generateJWT "" "client" scopes cfg.jwtSecret now cfg.tokenExp
  let tok : Token :=
    { accessToken := accessToken, refreshToken := "", userID := "",
      clientID := client.clientID, scopes := scopes,
      expiresAt := now + cfg.tokenExp, refreshExpiresAt := 0, createdAt := now }
  .ok ({ accessToken := accessToken, tokenType := tokenTypeBearer,
         expiresIn := cfg.tokenExp, refreshToken := "",
         scope := String.intercalate " " scopes },
       { st with tokens := st.tokens ++ [tok] })

/-- `oauthUseCase.GenerateToken`: authenticate the client, check the grant
type against the client's allowance, compute the scopes, and dispatch. -/
def generateToken (cfg : OAuthConfig) (st : SysState) (now : Nat)
    (freshRT : String) (req : OAuthRequest) :
    Except String (OAuthResponse × SysState) :=
  match validateClient st.clients req.clientID req.clientSecret with
  | .error e => .error e
  | .ok client =>
    if ¬ client.grantTypes.contains req.grantType then
      .error "tipo de concesión no permitido para este cliente"
    else
      let scopes := computeScopes req.scope client
      if req.grantType = grantTypePassword then
        handlePasswordGrant cfg st now freshRT req client scopes
      else if req.grantType = grantTypeRefreshToken then
        handleRefreshTokenGrant cfg st now freshRT req client scopes
      else if req.grantType = grantTypeClientCredentials then
        handleClientCredentialsGrant cfg st now client scopes
      else .error "tipo de concesión no implementado"

/-- `oauthUseCase.ValidateToken`: store lookup by access token, stored-expiry
check (`time.Now().After(ExpiresAt)`), then JWT verification. -/
def validateToken (cfg : OAuthConfig) (st : SysState) (now : Nat) (a : Jwt) :
    Except String (String × JwtClaims) :=
  match getByAccessToken st.tokens a with
  | .error _ => .error "token inválido"
  | .ok tok =>
    if tok.expiresAt < now then .error "token expirado"
    else validateJWT a cfg.jwtSecret now

/-- `oauthUseCase.RevokeToken`: delete the pair keyed by the refresh token,
then best-effort clear the owning subject's refresh pointer, swallowing the
lookup error; the method returns success in every modelled case (its only
error source is an infrastructure failure of `DeleteByRefreshToken`).  The
Go code performs the user lookup after the delete, but the delete touches
only the token collection, so the lookup reads the unchanged `st.users`. -/
def revokeToken (st : SysState) (rt : String) : Except String SysState :=
  match getUserByRefreshTokenRepo st.users rt with
  | .ok user =>
    .ok { st with tokens := deleteByRefreshToken st.tokens rt,
                  users := updateRefreshTokenRepo st.users user.id "" }
  | .error _ => .ok { st with tokens := deleteByRefreshToken st.tokens rt }

/-! ## Permission resolver (internal/permission/usecase/permission.usecase.go
and the user-role repository) -/

/-- `domain.Role` (fields relevant to resolution): the role id used by
assignments, and its permission codes. -/
structure Role where
  id : String
  permissions : List String
deriving DecidableEq, Repr

/-- `domain.UserRole`: a subject's assignment record. -/
structure UserRole where
  userID : String
  roles : List String
  permissions : List String
deriving DecidableEq, Repr

/-- The permission/role store: the user-role and role collections. -/
structure PermState where
  userRoles : List UserRole
  roles : List Role
deriving DecidableEq, Repr

/-- `mongoRoleRepository.GetByID` as used by `GetUserPermissions`, where any
error (malformed hex or not-found) makes the role be skipped: an `Option`. -/
def roleGetByID (roles : List Role) (rid : String) : Option Role :=
  roles.find? (fun r => r.id == rid)

/-- `mongoUserRoleRepository.GetByUserID`: fetch the subject's assignment
record, inserting a fresh empty one into the collection when none exists. -/
def getByUserID (st : PermState) (uid : String) : UserRole × PermState :=
  match st.userRoles.find? (fun ur => ur.userID == uid) with
  | some ur => (ur, st)
  | none =>
    let ur : UserRole := { userID := uid, roles := [], permissions := [] }
    (ur, { st with userRoles := st.userRoles ++ [ur] })

/-- Insertion into the Go `map[string]bool` permission set, modelled as an
append-if-absent on a duplicate-free list.  (Go map iteration order is
unspecified; the model fixes first-insertion order, which is irrelevant to
every claim, all of which are about membership.) -/
def insertUnique (l : List String) (x : String) : List String :=
  if l.contains x then l else l ++ [x]

/-- One iteration of the role loop in `GetUserPermissions`: resolve the role
id, skipping it on any error (`continue`), and otherwise add all its
permission codes to the set. -/
def addRolePerms (roles : List Role) (acc : List String) (rid : String) : List String :=
  match roleGetByID roles rid with
  | none => acc
  | some r => r.permissions.foldl insertUnique acc

/-- `mongoUserRoleRepository.GetUserPermissions`: union of the subject's
direct permission codes with the permission codes of every resolvable role in
its role list, duplicates collapsed; unresolvable roles are skipped. -/
def getUserPermissions (st : PermState) (uid : String) : List String × PermState :=
  let res := getByUserID st uid
  let s1 := res.1.permissions.foldl insertUnique []
  let s2 := res.1.roles.foldl (addRolePerms res.2.roles) s1
  (s2, res.2)

/-- `usecase.isWildcardMatch`: a pattern longer than 2 characters ending in
`'*'` matches every code that starts with the pattern minus its final `'*'`.
(Go indexes bytes; the model uses the character list, which agrees on the
ASCII permission codes the system uses.) -/
def isWildcardMatch (pattern code : String) : Bool :=
  if 2 < pattern.length && pattern.data.getLastD ' ' == '*' then
    let pre := pattern.data.dropLast
    decide (pre.length ≤ code.length) && (code.data.take pre.length == pre)
  else false

/-- The scan inside `permissionUseCase.HasPermission`: literal membership or
a wildcard match against any element. -/
def hasPermissionList (perms : List String) (code : String) : Bool :=
  perms.any (fun p => p == code || isWildcardMatch p code)

/-- `permissionUseCase.HasPermission`: resolve the subject's effective
permission list, then scan it. -/
def hasPermission (st : PermState) (uid code : String) : Bool × PermState :=
  let res := getUserPermissions st uid
  (hasPermissionList res.1 code, res.2)

/-! ## Concrete fixtures used by witnesses and counterexamples -/

/-- A registered client allowing all three grant types and scopes
`read`/`write`. -/
def exClient : Client :=
  { clientID := "c1", clientSecret := "s1",
    grantTypes := ["password", "refresh_token", "client_credentials"],
    scopes := ["read", "write"] }

/-- An active subject with the role `admin`. -/
def exUserAdmin : User :=
  { id := "u1", email := "a@b.c", password := "p1", role := "admin",
    status := "active", refreshToken := "" }

/-- An inactive subject. -/
def exUserInactive : User :=
  { id := "u2", email := "d@e.f", password := "p2", role := "guest",
    status := "inactive", refreshToken := "" }

/-- Initial store: one client, one active subject, no tokens. -/
def exState0 : SysState :=
  { clients := [exClient], tokens := [], users := [exUserAdmin] }

/-- A password-grant request for `read` scope only. -/
def exReqPwd : OAuthRequest :=
  { grantType := "password", clientID := "c1", clientSecret := "s1",
    username := "a@b.c", password := "p1", refreshToken := "", scope := "read" }

/-- A scope-less refresh request for the refresh token `"rt0"`. -/
def exReqRef0 : OAuthRequest :=
  { grantType := "refresh_token", clientID := "c1", clientSecret := "s1",
    username := "", password := "", refreshToken := "rt0", scope := "" }

/-- A scope-less refresh request for the refresh token `"rt1"`. -/
def exReqRef1 : OAuthRequest :=
  { grantType := "refresh_token", clientID := "c1", clientSecret := "s1",
    username := "", password := "", refreshToken := "rt1", scope := "" }

/-- The store after the password grant at time 100 (refresh token `"rt0"`). -/
def exState1 : SysState :=
  match generateToken devConfig exState0 100 "rt0" exReqPwd with
  | .ok (_, st) => st
  | .error _ => exState0

/-- The store after rotating `"rt0"` at time 200 (refresh token `"rt1"`). -/
def exState2 : SysState :=
  match generateToken devConfig exState1 200 "rt1" exReqRef0 with
  | .ok (_, st) => st
  | .error _ => exState1

/-- A token pair with a narrower scope (`read`) than its client allows,
owned by no subject, as a client-mismatch/scope fixture. -/
def exTokRead : Token :=
  { accessToken := generateJWT "" "" ["read"] "mi_secret_super_seguro" 0 900,
    refreshToken := "rt0", userID := "", clientID := "c1", scopes := ["read"],
    expiresAt := 900, refreshExpiresAt := 1000000, createdAt := 0 }

/-- A token pair owned by client `c2` and by the inactive subject `u2`. -/
def exTokForeign : Token :=
  { accessToken := generateJWT "u2" "guest" ["read"] "mi_secret_super_seguro" 0 900,
    refreshToken := "rtF", userID := "u2", clientID := "c2", scopes := ["read"],
    expiresAt := 900, refreshExpiresAt := 1000000, createdAt := 0 }

/-- The token pair minted by the password grant of `exState1`, written out
explicitly. -/
def exTok1 : Token :=
  { accessToken := generateJWT "u1" "admin" ["read"] "mi_secret_super_seguro" 100 (15 * 60),
    refreshToken := "rt0", userID := "u1", clientID := "c1", scopes := ["read"],
    expiresAt := 100 + 15 * 60, refreshExpiresAt := 100 + 60 * 60,
    createdAt := 100 }

/-- The response of the password grant producing `exState1`, written out
explicitly. -/
def exRes1 : OAuthResponse :=
  { accessToken := generateJWT "u1" "admin" ["read"] "mi_secret_super_seguro" 100 (15 * 60),
    tokenType := "Bearer", expiresIn := 15 * 60, refreshToken := "rt0",
    scope := "read" }

/-- The response of the refresh grant producing `exState2`, written out
explicitly. -/
def exRes2 : OAuthResponse :=
  { accessToken := generateJWT "u1" "" ["read", "write"]
      "mi_secret_super_seguro" 200 (15 * 60),
    tokenType := "Bearer", expiresIn := 15 * 60, refreshToken := "rt1",
    scope := "read write" }

/-- A scope-less refresh request for the refresh token `"rtF"`. -/
def exReqRefF : OAuthRequest :=
  { grantType := "refresh_token", clientID := "c1", clientSecret := "s1",
    username := "", password := "", refreshToken := "rtF", scope := "" }

/-- Store for the scope-widening run: the client allows `read write`, the
stored pair carries the narrower scope `read`. -/
def exStateScope : SysState :=
  { clients := [exClient], tokens := [exTokRead], users := [] }

/-- Store for the failure-order run: the stored pair belongs to a different
client (`c2`) and to the inactive subject `u2`. -/
def exStateOrder : SysState :=
  { clients := [exClient], tokens := [exTokForeign], users := [exUserInactive] }

/-- A permission store: subject `u1` holds one direct permission, one
resolvable role, and one dangling role id. -/
def exPermState : PermState :=
  { userRoles := [{ userID := "u1", roles := ["r1", "ghost"],
                    permissions := ["direct:perm"] }],
    roles := [{ id := "r1", permissions := ["admin:*"] }] }

/-! ## Lemmas about the wildcard matcher -/

/-- `isWildcardMatch pattern code` succeeds exactly when the pattern is some
string of length at least 2 followed by `'*'` and the code starts with that
leading string. -/
theorem isWildcardMatch_iff (pattern code : String) :
    isWildcardMatch pattern code = true ↔
      ∃ pre, pattern.data = pre ++ ['*'] ∧ 2 < pattern.length ∧
        ∃ rest, code.data = pre ++ rest := by
  have hclen : code.length = code.data.length := rfl
  unfold isWildcardMatch
  split
  case isTrue h =>
    rw [Bool.and_eq_true, decide_eq_true_eq, beq_iff_eq] at h
    obtain ⟨hlen, hlast⟩ := h
    have hne : pattern.data ≠ [] := by
      intro hnil
      rw [show pattern.length = pattern.data.length from rfl, hnil] at hlen
      simp at hlen
    have hlast' : pattern.data.getLast hne = '*' := by
      rw [List.getLastD_eq_getLast?, List.getLast?_eq_getLast _ hne,
        Option.getD_some] at hlast
      exact hlast
    have hsplit : pattern.data = pattern.data.dropLast ++ ['*'] := by
      conv_lhs => rw [← List.dropLast_append_getLast hne]
      rw [hlast']
    rw [Bool.and_eq_true, decide_eq_true_eq, beq_iff_eq]
    constructor
    · rintro ⟨hle, htake⟩
      refine ⟨pattern.data.dropLast, hsplit, hlen,
        code.data.drop pattern.data.dropLast.length, ?_⟩
      conv_lhs => rw [← List.take_append_drop pattern.data.dropLast.length code.data]
      rw [htake]
    · rintro ⟨pre, hpre, -, rest, hcode⟩
      have hpre' : pattern.data.dropLast = pre := by
        rw [hpre]
        simp
      constructor
      · rw [hclen, hcode, hpre']
        simp
      · rw [hpre', hcode]
        exact List.take_left pre rest
  case isFalse h =>
    rw [Bool.and_eq_true, decide_eq_true_eq, beq_iff_eq] at h
    simp only [Bool.false_eq_true, false_iff]
    rintro ⟨pre, hpre, h2, -⟩
    apply h
    refine ⟨h2, ?_⟩
    rw [hpre]
    simp

/-- C3: `HasPermission(subjectId, code)` is true iff `code` is literally in
the subject's effective permission set, or some element of that set is a
wildcard pattern — a string of more than 2 characters ending in `'*'` —
whose part before the `'*'` starts `code`; and a pattern of length at most 2
(such as a bare `"*"`) is never treated as a wildcard. -/
theorem hasPermission_wildcard_characterization :
    (∀ st uid code,
      (hasPermission st uid code).1 = true ↔
        code ∈ (getUserPermissions st uid).1 ∨
        ∃ p ∈ (getUserPermissions st uid).1, ∃ pre,
          p.data = pre ++ ['*'] ∧ 2 < p.length ∧
          ∃ rest, code.data = pre ++ rest) ∧
    (∀ p code, p.length ≤ 2 → isWildcardMatch p code = false) := by
  constructor
  · intro st uid code
    have h1 : (hasPermission st uid code).1
        = hasPermissionList (getUserPermissions st uid).1 code := rfl
    rw [h1, hasPermissionList, List.any_eq_true]
    constructor
    · rintro ⟨p, hp, hor⟩
      rw [Bool.or_eq_true] at hor
      rcases hor with heq | hw
      · left
        rw [beq_iff_eq] at heq
        rwa [heq] at hp
      · right
        exact ⟨p, hp, (isWildcardMatch_iff p code).mp hw⟩
    · rintro (hmem | ⟨p, hp, hw⟩)
      · exact ⟨code, hmem, by simp⟩
      · refine ⟨p, hp, ?_⟩
        rw [Bool.or_eq_true]
        exact Or.inr ((isWildcardMatch_iff p code).mpr hw)
  · intro p code h
    simp only [isWildcardMatch]
    have hlen' : decide (2 < p.length) = false := by
      simp only [decide_eq_false_iff_not]
      omega
    rw [hlen']
    simp

/-- Witness for C3 at a concrete input: a bare `"*"` matches nothing. -/
theorem hasPermission_wildcard_characterization_witness :
    isWildcardMatch "*" "admin:users" = false :=
  hasPermission_wildcard_characterization.2 "*" "admin:users" (by decide)

/-! ## Lemmas about the effective-permission computation -/

theorem mem_insertUnique (l : List String) (x y : String) :
    y ∈ insertUnique l x ↔ y ∈ l ∨ y = x := by
  unfold insertUnique
  split
  case isTrue h =>
    simp only [List.elem_eq_mem, decide_eq_true_eq] at h
    constructor
    · exact Or.inl
    · rintro (hy | rfl)
      · exact hy
      · exact h
  case isFalse h =>
    simp [List.mem_append]

theorem nodup_insertUnique (l : List String) (x : String) (h : l.Nodup) :
    (insertUnique l x).Nodup := by
  unfold insertUnique
  split
  case isTrue _ => exact h
  case isFalse hc =>
    simp only [List.elem_eq_mem, decide_eq_true_eq] at hc
    simp [List.nodup_append, h, hc]

theorem mem_foldl_insertUnique (l acc : List String) (y : String) :
    y ∈ l.foldl insertUnique acc ↔ y ∈ acc ∨ y ∈ l := by
  induction l generalizing acc with
  | nil => simp
  | cons x xs ih =>
    rw [List.foldl_cons, ih, mem_insertUnique]
    simp [List.mem_cons, or_assoc]

theorem nodup_foldl_insertUnique (l acc : List String) (h : acc.Nodup) :
    (l.foldl insertUnique acc).Nodup := by
  induction l generalizing acc with
  | nil => simpa
  | cons x xs ih => exact ih _ (nodup_insertUnique _ _ h)

theorem mem_addRolePerms (roles : List Role) (acc : List String) (rid y : String) :
    y ∈ addRolePerms roles acc rid ↔
      y ∈ acc ∨ ∃ r, roleGetByID roles rid = some r ∧ y ∈ r.permissions := by
  unfold addRolePerms
  cases h : roleGetByID roles rid with
  | none => simp [h]
  | some r => simp [h, mem_foldl_insertUnique]

theorem nodup_addRolePerms (roles : List Role) (acc : List String) (rid : String)
    (h : acc.Nodup) : (addRolePerms roles acc rid).Nodup := by
  unfold addRolePerms
  cases hfind : roleGetByID roles rid with
  | none => exact h
  | some r => exact nodup_foldl_insertUnique _ _ h

theorem mem_foldl_addRolePerms (roles : List Role) (rids : List String)
    (acc : List String) (y : String) :
    y ∈ rids.foldl (addRolePerms roles) acc ↔
      y ∈ acc ∨ ∃ rid ∈ rids, ∃ r,
        roleGetByID roles rid = some r ∧ y ∈ r.permissions := by
  induction rids generalizing acc with
  | nil => simp
  | cons rid rids ih =>
    rw [List.foldl_cons, ih, mem_addRolePerms]
    simp only [List.mem_cons]
    constructor
    · rintro (((hy | ⟨r, hr, hyr⟩) | ⟨rid', hrid', r, hr, hyr⟩))
      · exact Or.inl hy
      · exact Or.inr ⟨rid, Or.inl rfl, r, hr, hyr⟩
      · exact Or.inr ⟨rid', Or.inr hrid', r, hr, hyr⟩
    · rintro (hy | ⟨rid', (rfl | hrid'), r, hr, hyr⟩)
      · exact Or.inl (Or.inl hy)
      · exact Or.inl (Or.inr ⟨r, hr, hyr⟩)
      · exact Or.inr ⟨rid', hrid', r, hr, hyr⟩

theorem nodup_foldl_addRolePerms (roles : List Role) (rids : List String)
    (acc : List String) (h : acc.Nodup) :
    (rids.foldl (addRolePerms roles) acc).Nodup := by
  induction rids generalizing acc with
  | nil => simpa
  | cons rid rids ih => exact ih _ (nodup_addRolePerms _ _ _ h)

/-- `GetByUserID` never touches the role collection. -/
theorem getByUserID_roles (st : PermState) (uid : String) :
    (getByUserID st uid).2.roles = st.roles := by
  unfold getByUserID
  split <;> rfl

/-- C8: the effective permission set of a subject is exactly the union of
its directly assigned codes with the codes of every role id in its role list
that resolves; dangling role ids are skipped without failing; the resulting
list is duplicate-free; and a subject with no assignment record gets an
empty record appended to the collection and an empty effective set. -/
theorem getUserPermissions_spec :
    (∀ st uid c,
      c ∈ (getUserPermissions st uid).1 ↔
        c ∈ (getByUserID st uid).1.permissions ∨
        ∃ rid ∈ (getByUserID st uid).1.roles, ∃ r,
          roleGetByID st.roles rid = some r ∧ c ∈ r.permissions) ∧
    (∀ st uid, (getUserPermissions st uid).1.Nodup) ∧
    (∀ st uid, st.userRoles.find? (fun ur => ur.userID == uid) = none →
      (getUserPermissions st uid).1 = [] ∧
      (getUserPermissions st uid).2.userRoles
        = st.userRoles ++ [{ userID := uid, roles := [], permissions := [] }]) := by
  refine ⟨?_, ?_, ?_⟩
  · intro st uid c
    have hshow : (getUserPermissions st uid).1
        = (getByUserID st uid).1.roles.foldl
            (addRolePerms (getByUserID st uid).2.roles)
            ((getByUserID st uid).1.permissions.foldl insertUnique []) := rfl
    rw [hshow, getByUserID_roles, mem_foldl_addRolePerms, mem_foldl_insertUnique]
    simp
  · intro st uid
    exact nodup_foldl_addRolePerms _ _ _
      (nodup_foldl_insertUnique _ _ List.nodup_nil)
  · intro st uid hfind
    have hub : getByUserID st uid
        = ({ userID := uid, roles := [], permissions := [] },
           { st with userRoles :=
              st.userRoles ++ [{ userID := uid, roles := [], permissions := [] }] }) := by
      unfold getByUserID
      rw [hfind]
    constructor
    · show ((getByUserID st uid).1.roles.foldl
          (addRolePerms (getByUserID st uid).2.roles)
          ((getByUserID st uid).1.permissions.foldl insertUnique [])) = []
      rw [hub]
      rfl
    · show (getByUserID st uid).2.userRoles = _
      rw [hub]

/-- Witness for C8 at a concrete input: a subject with no assignment record
gets an empty effective set and a fresh empty record. -/
theorem getUserPermissions_spec_witness :
    (getUserPermissions exPermState "u9").1 = [] ∧
    (getUserPermissions exPermState "u9").2.userRoles
      = exPermState.userRoles
        ++ [{ userID := "u9", roles := [], permissions := [] }] :=
  getUserPermissions_spec.2.2 exPermState "u9" (by rfl)

/-! ## Access-token validation -/

/-- C1: `ValidateToken` succeeds — returning the token's subject id and
claims — only when the pair is present in the token store, the current time
is not past the stored access-expiry, and the JWT signature verifies under
the configured secret; a failed store lookup yields the invalid-token error,
a past stored expiry yields the expired-token error, and a signature
mismatch yields an error; store presence alone, or a valid signature alone,
does not suffice (witnessed by closed counterinstances). -/
theorem validateToken_spec :
    (∀ cfg st now a uid cl,
      validateToken cfg st now a = .ok (uid, cl) →
        (∃ t, getByAccessToken st.tokens a = .ok t ∧ ¬ t.expiresAt < now) ∧
        a.signedWith = cfg.jwtSecret ∧ uid = a.claims.userID ∧ cl = a.claims) ∧
    (∀ cfg st now a e, getByAccessToken st.tokens a = .error e →
      validateToken cfg st now a = .error "token inválido") ∧
    (∀ cfg st now a t, getByAccessToken st.tokens a = .ok t →
      t.expiresAt < now →
      validateToken cfg st now a = .error "token expirado") ∧
    (∀ cfg st now a t, getByAccessToken st.tokens a = .ok t →
      ¬ t.expiresAt < now → a.signedWith ≠ cfg.jwtSecret →
      ∃ e, validateToken cfg st now a = .error e) ∧
    (getByAccessToken [exTokRead] exTokRead.accessToken = .ok exTokRead ∧
      validateToken devConfig { clients := [], tokens := [exTokRead], users := [] }
        5000 exTokRead.accessToken = .error "token expirado") ∧
    ((generateJWT "u1" "admin" [] devConfig.jwtSecret 0 900).signedWith
        = devConfig.jwtSecret ∧
      validateToken devConfig { clients := [], tokens := [], users := [] } 0
        (generateJWT "u1" "admin" [] devConfig.jwtSecret 0 900)
        = .error "token inválido") := by
  refine ⟨?_, ?_, ?_, ?_, ⟨by rfl, by rfl⟩, ⟨by rfl, by rfl⟩⟩
  · intro cfg st now a uid cl h
    unfold validateToken at h
    cases hget : getByAccessToken st.tokens a with
    | error e =>
      rw [hget] at h
      simp at h
    | ok t =>
      simp only [hget] at h
      split at h
      case isTrue hexp => simp at h
      case isFalse hexp =>
        unfold validateJWT at h
        split at h
        case isTrue hjexp => simp at h
        case isFalse hjexp =>
          split at h
          case isTrue hsig => simp at h
          case isFalse hsig =>
            simp only [Except.ok.injEq, Prod.mk.injEq] at h
            push_neg at hsig
            exact ⟨⟨t, rfl, hexp⟩, hsig, h.1.symm, h.2.symm⟩
  · intro cfg st now a e hget
    unfold validateToken
    rw [hget]
  · intro cfg st now a t hget hexp
    unfold validateToken
    simp only [hget]
    rw [if_pos hexp]
  · intro cfg st now a t hget hexp hsig
    unfold validateToken
    simp only [hget]
    rw [if_neg hexp]
    unfold validateJWT
    by_cases hjexp : a.claims.expiresAt < now
    · exact ⟨"Token is expired", by rw [if_pos hjexp]⟩
    · exact ⟨"signature is invalid", by rw [if_neg hjexp, if_pos hsig]⟩

/-- Witness for C1 at a concrete input: a stored but expired pair fails with
the expired-token error. -/
theorem validateToken_spec_witness :
    validateToken devConfig { clients := [], tokens := [exTokRead], users := [] }
      5000 exTokRead.accessToken = .error "token expirado" :=
  validateToken_spec.2.2.1 devConfig
    { clients := [], tokens := [exTokRead], users := [] }
    5000 exTokRead.accessToken exTokRead (by rfl) (by decide)

/-! ## Lemmas about the single-document delete and update -/

theorem mem_of_mem_removeFirstBy {α : Type} (p : α → Bool) (l : List α) (x : α)
    (h : x ∈ removeFirstBy p l) : x ∈ l := by
  induction l with
  | nil =>
    simp [removeFirstBy] at h
  | cons y ys ih =>
    rw [removeFirstBy] at h
    split at h
    · exact List.mem_cons_of_mem y h
    · rcases List.mem_cons.mp h with rfl | h'
      · exact List.mem_cons_self x ys
      · exact List.mem_cons_of_mem y (ih h')

theorem removeFirstBy_eq_self {α : Type} (p : α → Bool) (l : List α)
    (h : ∀ x ∈ l, p x = false) : removeFirstBy p l = l := by
  induction l with
  | nil => rfl
  | cons y ys ih =>
    rw [removeFirstBy, if_neg, ih]
    · intro x hx
      exact h x (List.mem_cons_of_mem y hx)
    · rw [h y (List.mem_cons_self y ys)]
      simp

/-- After removing the first match from a duplicate-free list in which all
matches coincide (the at-most-one-match situation mirroring Mongo key
uniqueness), nothing matches any more. -/
theorem removeFirstBy_none_left {α : Type} (p : α → Bool) (l : List α)
    (hnd : l.Nodup)
    (hu : ∀ x ∈ l, ∀ y ∈ l, p x = true → p y = true → x = y) :
    ∀ x ∈ removeFirstBy p l, p x = false := by
  induction l with
  | nil => simp [removeFirstBy]
  | cons y ys ih =>
    rw [List.nodup_cons] at hnd
    rw [removeFirstBy]
    split
    case isTrue hy =>
      intro x hx
      by_contra hpx
      rw [Bool.not_eq_false] at hpx
      have hxy : x = y := hu x (List.mem_cons_of_mem y hx) y
        (List.mem_cons_self y ys) hpx hy
      exact hnd.1 (hxy ▸ hx)
    case isFalse hy =>
      intro x hx
      rcases List.mem_cons.mp hx with rfl | hx'
      · rwa [Bool.not_eq_true] at hy
      · exact ih hnd.2
          (fun a ha b hb hpa hpb =>
            hu a (List.mem_cons_of_mem y ha) b (List.mem_cons_of_mem y hb) hpa hpb)
          x hx'

theorem updateFirstBy_eq_self {α : Type} (p : α → Bool) (f : α → α) (l : List α)
    (h : ∀ x ∈ l, p x = true → f x = x) : updateFirstBy p f l = l := by
  induction l with
  | nil => rfl
  | cons y ys ih =>
    rw [updateFirstBy]
    split
    case isTrue hy =>
      rw [h y (List.mem_cons_self y ys) hy]
    case isFalse hy =>
      rw [ih (fun x hx hp => h x (List.mem_cons_of_mem y hx) hp)]

/-- In a duplicate-free list whose only match is `u`, updating the first
match rewrites exactly the occurrence of `u`. -/
theorem updateFirstBy_eq_map {α : Type} [DecidableEq α] (p : α → Bool)
    (f : α → α) (l : List α) (u : α) (hnd : l.Nodup) (hmem : u ∈ l)
    (hp : p u = true) (huniq : ∀ x ∈ l, p x = true → x = u) :
    updateFirstBy p f l = l.map (fun x => if x = u then f x else x) := by
  induction l with
  | nil => rfl
  | cons y ys ih =>
    rw [List.nodup_cons] at hnd
    by_cases hyu : y = u
    · subst hyu
      rw [updateFirstBy, if_pos hp, List.map_cons, if_pos rfl]
      have hys : ys.map (fun x => if x = y then f x else x) = ys := by
        conv_rhs => rw [← List.map_id ys]
        apply List.map_congr_left
        intro a ha
        have hay : a ≠ y := fun hay => hnd.1 (hay ▸ ha)
        simp [hay]
      rw [hys]
    · have hpy : p y = false := by
        by_contra hpy
        rw [Bool.not_eq_false] at hpy
        exact hyu (huniq y (List.mem_cons_self y ys) hpy)
      rw [updateFirstBy, if_neg (by rw [hpy]; simp), List.map_cons, if_neg hyu]
      rcases List.mem_cons.mp hmem with rfl | hmem2
      · exact absurd rfl hyu
      · rw [ih hnd.2 hmem2
          (fun x hx hpx => huniq x (List.mem_cons_of_mem y hx) hpx)]

/-- `RevokeToken` always succeeds, and its resulting token collection is the
single-document delete of the refresh token, whatever happens on the user
side. -/
theorem revokeToken_tokens (st : SysState) (rt : String) :
    ∃ st2, revokeToken st rt = .ok st2 ∧
      st2.tokens = deleteByRefreshToken st.tokens rt := by
  unfold revokeToken
  cases h : getUserByRefreshTokenRepo st.users rt with
  | ok u => exact ⟨_, rfl, rfl⟩
  | error e => exact ⟨_, rfl, rfl⟩

/-! ## Revocation -/

/-- C2: under the store's key-uniqueness invariants, after `RevokeToken(rt)`
succeeds the pair that was stored under `rt` is gone: the refresh-token
lookup fails, `ValidateRefreshToken(rt)` fails, and `ValidateToken` on the
paired access token fails, at every later time and configuration. -/
theorem revokeToken_invalidates (st : SysState) (rt : String) (t : Token)
    (hnd : st.tokens.Nodup) (_ht : t ∈ st.tokens) (hrt : t.refreshToken = rt)
    (huT : ∀ x ∈ st.tokens, x.refreshToken = rt → x = t)
    (hacc : ∀ x ∈ st.tokens, x.accessToken = t.accessToken → x = t) :
    ∃ st2, revokeToken st rt = .ok st2 ∧
      t ∉ st2.tokens ∧
      (∀ now, validateRefreshToken st2 now rt
        = .error "refresh token inválido o no encontrado") ∧
      (∀ cfg now, validateToken cfg st2 now t.accessToken
        = .error "token inválido") := by
  obtain ⟨st2, hrev, htok⟩ := revokeToken_tokens st rt
  have hnomatch : ∀ x ∈ st2.tokens, (x.refreshToken == rt) = false := by
    rw [htok]
    exact removeFirstBy_none_left _ _ hnd
      (fun a ha b hb hpa hpb =>
        (huT a ha (by rwa [beq_iff_eq] at hpa)).trans
          (huT b hb (by rwa [beq_iff_eq] at hpb)).symm)
  have htnot : t ∉ st2.tokens := by
    intro htin
    have hfalse := hnomatch t htin
    rw [hrt] at hfalse
    simp at hfalse
  have hfind : st2.tokens.find? (fun x => x.refreshToken == rt) = none :=
    List.find?_eq_none.mpr (fun x hx => by rw [hnomatch x hx]; simp)
  have hget : getByRefreshToken st2.tokens rt = .error "token no encontrado" := by
    unfold getByRefreshToken
    rw [hfind]
  refine ⟨st2, hrev, htnot, ?_, ?_⟩
  · intro now
    unfold validateRefreshToken
    rw [hget]
  · intro cfg now
    have hfindA : st2.tokens.find? (fun x => x.accessToken == t.accessToken) = none := by
      apply List.find?_eq_none.mpr
      intro x hx hbeq
      rw [beq_iff_eq] at hbeq
      have hxt : x = t := hacc x
        (mem_of_mem_removeFirstBy _ _ _ (htok ▸ hx)) hbeq
      exact htnot (hxt ▸ hx)
    have hgetA : getByAccessToken st2.tokens t.accessToken
        = .error "token no encontrado" := by
      unfold getByAccessToken
      rw [hfindA]
    unfold validateToken
    rw [hgetA]

/-- Witness for C2 at a concrete input: revoking the password-grant pair of
`exState1` kills both its refresh token and its access token. -/
theorem revokeToken_invalidates_witness :
    ∃ st2, revokeToken exState1 "rt0" = .ok st2 ∧
      exTok1 ∉ st2.tokens ∧
      (∀ now, validateRefreshToken st2 now "rt0"
        = .error "refresh token inválido o no encontrado") ∧
      (∀ cfg now, validateToken cfg st2 now exTok1.accessToken
        = .error "token inválido") :=
  revokeToken_invalidates exState1 "rt0" exTok1 (by decide) (by decide)
    (by decide) (by decide) (by decide)


/-- Unfolding `GetByRefreshToken` success on the user collection. -/
theorem getUserByRefreshTokenRepo_ok (users : List User) (rt : String) (u : User)
    (h : getUserByRefreshTokenRepo users rt = .ok u) :
    users.find? (fun v => v.refreshToken == rt) = some u := by
  unfold getUserByRefreshTokenRepo at h
  cases hf : users.find? (fun v => v.refreshToken == rt) with
  | some v =>
    rw [hf] at h
    simp only [Except.ok.injEq] at h
    rw [h]
  | none =>
    rw [hf] at h
    simp at h

/-- Deleting by a refresh token twice is the same as deleting once, under
the at-most-one-pair-per-refresh-token invariant. -/
theorem deleteByRefreshToken_deleted (tokens : List Token) (rt : String)
    (hnd : tokens.Nodup)
    (hu : ∀ x ∈ tokens, ∀ y ∈ tokens,
      x.refreshToken = rt → y.refreshToken = rt → x = y) :
    deleteByRefreshToken (deleteByRefreshToken tokens rt) rt
      = deleteByRefreshToken tokens rt := by
  apply removeFirstBy_eq_self
  exact removeFirstBy_none_left _ _ hnd
    (fun a ha b hb hpa hpb =>
      hu a ha b hb (by rwa [beq_iff_eq] at hpa) (by rwa [beq_iff_eq] at hpb))

/-- C9: `RevokeToken` never errors — in particular revoking an unknown or
already-revoked refresh token succeeds — and, under the store's uniqueness
invariants (duplicate-free collections, at most one pair and at most one
subject pointer per refresh-token value, unique user ids), revoking the
same refresh token a second time leaves the store exactly as after the
first call. -/
theorem revokeToken_idempotent :
    (∀ st rt, ∃ st2, revokeToken st rt = .ok st2) ∧
    (∀ st rt,
      st.tokens.Nodup →
      (∀ x ∈ st.tokens, ∀ y ∈ st.tokens,
        x.refreshToken = rt → y.refreshToken = rt → x = y) →
      st.users.Nodup →
      (∀ u ∈ st.users, ∀ v ∈ st.users, u.id = v.id → u = v) →
      (∀ u ∈ st.users, ∀ v ∈ st.users,
        u.refreshToken = rt → v.refreshToken = rt → u = v) →
      ∀ st2, revokeToken st rt = .ok st2 → revokeToken st2 rt = .ok st2) := by
  constructor
  · intro st rt
    unfold revokeToken
    cases h : getUserByRefreshTokenRepo st.users rt with
    | ok u => exact ⟨_, rfl⟩
    | error e => exact ⟨_, rfl⟩
  · intro st rt hndT huT hndU huid hurt st2 hrev
    have hdel := deleteByRefreshToken_deleted st.tokens rt hndT huT
    unfold revokeToken at hrev
    cases h : getUserByRefreshTokenRepo st.users rt with
    | error e =>
      rw [h] at hrev
      simp only [Except.ok.injEq] at hrev
      subst hrev
      unfold revokeToken
      rw [h, hdel]
    | ok u =>
      rw [h] at hrev
      simp only [Except.ok.injEq] at hrev
      subst hrev
      have hfq := getUserByRefreshTokenRepo_ok st.users rt u h
      have humem : u ∈ st.users := List.mem_of_find?_eq_some hfq
      have hqu' := List.find?_some hfq
      have hqu : u.refreshToken = rt := by
        rw [← beq_iff_eq]
        simpa using hqu'

      have hmap : updateRefreshTokenRepo st.users u.id ""
          = st.users.map (fun x => if x = u then { x with refreshToken := "" } else x) := by
        apply updateFirstBy_eq_map _ _ _ u hndU humem (by simp)
        intro x hx hpx
        rw [beq_iff_eq] at hpx
        exact huid x hx u humem hpx
      by_cases hrte : rt = ""
      · have hfix : updateRefreshTokenRepo st.users u.id "" = st.users := by
          apply updateFirstBy_eq_self
          intro x hx hpx
          rw [beq_iff_eq] at hpx
          have hxu : x = u := huid x hx u humem hpx
          subst hxu
          have hx0 : x.refreshToken = "" := by rw [hqu, hrte]
          cases x
          simp_all
        unfold revokeToken
        simp only [hfix, h, hdel]
      · have hnone : (st.users.map
            (fun x => if x = u then { x with refreshToken := "" } else x)).find?
              (fun v => v.refreshToken == rt) = none := by
          apply List.find?_eq_none.mpr
          intro x hx hbx
          rw [beq_iff_eq] at hbx
          rcases List.mem_map.mp hx with ⟨y, hy, hxy⟩
          by_cases hyu : y = u
          · subst hyu
            rw [if_pos rfl] at hxy
            rw [← hxy] at hbx
            exact hrte (hbx.symm)
          · rw [if_neg hyu] at hxy
            subst hxy
            exact hyu (hurt y hy u humem hbx hqu)
        rw [hmap]
        unfold revokeToken
        have hget2 : getUserByRefreshTokenRepo
            (st.users.map (fun x => if x = u then { x with refreshToken := "" } else x)) rt
            = .error "token de refresco inválido" := by
          unfold getUserByRefreshTokenRepo
          rw [hnone]
        simp only [hget2, hdel, Except.ok.injEq]

/-- Witness for C9 at a concrete input: revoking `"rt0"` in the
already-revoked store is a no-op that still succeeds. -/
theorem revokeToken_idempotent_witness :
    revokeToken exState0 "rt0" = .ok exState0 :=
  revokeToken_idempotent.2 exState1 "rt0" (by decide) (by decide) (by decide)
    (by decide) (by decide) exState0 (by rfl)


/-! ## Shape lemmas for successful grants -/

/-- A successful `GenerateToken` call factors into client authentication,
the grant-type allowance check, the scope computation, and one of the three
grant handlers. -/
theorem generateToken_ok_cases (cfg : OAuthConfig) (st : SysState) (now : Nat)
    (freshRT : String) (req : OAuthRequest) (res : OAuthResponse) (st2 : SysState)
    (h : generateToken cfg st now freshRT req = .ok (res, st2)) :
    ∃ client, validateClient st.clients req.clientID req.clientSecret = .ok client ∧
      client.grantTypes.contains req.grantType = true ∧
      ((req.grantType = grantTypePassword ∧
          handlePasswordGrant cfg st now freshRT req client
            (computeScopes req.scope client) = .ok (res, st2)) ∨
       (req.grantType = grantTypeRefreshToken ∧
          handleRefreshTokenGrant cfg st now freshRT req client
            (computeScopes req.scope client) = .ok (res, st2)) ∨
       (req.grantType = grantTypeClientCredentials ∧
          handleClientCredentialsGrant cfg st now client
            (computeScopes req.scope client) = .ok (res, st2))) := by
  unfold generateToken at h
  cases hc : validateClient st.clients req.clientID req.clientSecret with
  | error e =>
    rw [hc] at h
    simp at h
  | ok client =>
    simp only [hc] at h
    refine ⟨client, rfl, ?_, ?_⟩
    · by_contra hg
      rw [Bool.not_eq_true] at hg
      rw [if_pos (by rw [hg]; simp)] at h
      simp at h
    · split at h
      case isTrue hng => simp at h
      case isFalse hng =>
        split at h
        case isTrue hgp => exact Or.inl ⟨hgp, h⟩
        case isFalse hgp =>
          split at h
          case isTrue hgr => exact Or.inr (Or.inl ⟨hgr, h⟩)
          case isFalse hgr =>
            split at h
            case isTrue hgc => exact Or.inr (Or.inr ⟨hgc, h⟩)
            case isFalse hgc => simp at h

/-- A successful password grant validates the subject's credentials and
appends one freshly minted pair, carrying the computed scopes, the standard
expiries, and the subject's role inside the access JWT. -/
theorem handlePasswordGrant_ok (cfg : OAuthConfig) (st : SysState) (now : Nat)
    (freshRT : String) (req : OAuthRequest) (client : Client)
    (scopes : List String) (res : OAuthResponse) (st2 : SysState)
    (h : handlePasswordGrant cfg st now freshRT req client scopes = .ok (res, st2)) :
    ∃ user, validateCredentials st.users req.username req.password = .ok user ∧
      res.accessToken = generateJWT user.id user.role scopes cfg.jwtSecret now cfg.tokenExp ∧
      st2.tokens = st.tokens ++
        [{ accessToken := generateJWT user.id user.role scopes cfg.jwtSecret now cfg.tokenExp,
           refreshToken := freshRT, userID := user.id, clientID := client.clientID,
           scopes := scopes, expiresAt := now + cfg.tokenExp,
           refreshExpiresAt := now + cfg.refreshExp, createdAt := now }] := by
  unfold handlePasswordGrant at h
  split at h
  case isTrue hreq => simp at h
  case isFalse hreq =>
    cases hv : validateCredentials st.users req.username req.password with
    | error e =>
      rw [hv] at h
      simp at h
    | ok user =>
      simp only [hv] at h
      simp only [Except.ok.injEq, Prod.mk.injEq] at h
      refine ⟨user, rfl, ?_, ?_⟩
      · rw [← h.1]
      · rw [← h.2]

/-- A successful refresh grant validates the old pair, requires it to belong
to the authenticating client, deletes it and appends one freshly minted
pair whose scopes are the incoming ones unless those are empty (then the
old pair's), and whose access JWT carries an empty role. -/
theorem handleRefreshTokenGrant_ok (cfg : OAuthConfig) (st : SysState) (now : Nat)
    (freshRT : String) (req : OAuthRequest) (client : Client)
    (scopes0 : List String) (res : OAuthResponse) (st2 : SysState)
    (h : handleRefreshTokenGrant cfg st now freshRT req client scopes0 = .ok (res, st2)) :
    req.refreshToken ≠ "" ∧
    ∃ oldToken, validateRefreshToken st now req.refreshToken = .ok oldToken ∧
      oldToken.clientID = client.clientID ∧
      res.accessToken = generateJWT oldToken.userID ""
        (if scopes0.isEmpty then oldToken.scopes else scopes0) cfg.jwtSecret now cfg.tokenExp ∧
      st2.tokens = deleteByRefreshToken st.tokens req.refreshToken ++
        [{ accessToken := generateJWT oldToken.userID ""
             (if scopes0.isEmpty then oldToken.scopes else scopes0) cfg.jwtSecret now cfg.tokenExp,
           refreshToken := freshRT, userID := oldToken.userID,
           clientID := client.clientID,
           scopes := if scopes0.isEmpty then oldToken.scopes else scopes0,
           expiresAt := now + cfg.tokenExp,
           refreshExpiresAt := now + cfg.refreshExp, createdAt := now }] := by
  unfold handleRefreshTokenGrant at h
  split at h
  case isTrue hreq => simp at h
  case isFalse hreq =>
    refine ⟨hreq, ?_⟩
    cases hv : validateRefreshToken st now req.refreshToken with
    | error e =>
      rw [hv] at h
      simp at h
    | ok oldToken =>
      simp only [hv] at h
      split at h
      case isTrue hcl => simp at h
      case isFalse hcl =>
        push_neg at hcl
        simp only [Except.ok.injEq, Prod.mk.injEq] at h
        refine ⟨oldToken, rfl, hcl, ?_, ?_⟩
        · rw [← h.1]
        · rw [← h.2]

/-- A client-credentials grant always succeeds, appending one pair with no
refresh token, no subject, the literal role `"client"` in the JWT, and the
Go zero value for the refresh expiry. -/
theorem handleClientCredentialsGrant_ok (cfg : OAuthConfig) (st : SysState)
    (now : Nat) (client : Client) (scopes : List String) (res : OAuthResponse)
    (st2 : SysState)
    (h : handleClientCredentialsGrant cfg st now client scopes = .ok (res, st2)) :
    res.accessToken = generateJWT "" "client" scopes cfg.jwtSecret now cfg.tokenExp ∧
    st2.tokens = st.tokens ++
      [{ accessToken := generateJWT "" "client" scopes cfg.jwtSecret now cfg.tokenExp,
         refreshToken := "", userID := "", clientID := client.clientID,
         scopes := scopes, expiresAt := now + cfg.tokenExp,
         refreshExpiresAt := 0, createdAt := now }] := by
  unfold handleClientCredentialsGrant at h
  simp only [Except.ok.injEq, Prod.mk.injEq] at h
  constructor
  · rw [← h.1]
  · rw [← h.2]


/-! ## Expiry invariant of minted pairs -/

/-- C7: whenever the configured access-token lifetime does not exceed the
refresh lifetime — as in both shipped configurations — every pair minted by
a password or refresh_token grant stores an access expiry that is at most
its refresh expiry. -/
theorem minted_pair_expiry_invariant :
    (∀ cfg st now freshRT req res st2,
      cfg.tokenExp ≤ cfg.refreshExp →
      req.grantType = grantTypePassword ∨ req.grantType = grantTypeRefreshToken →
      generateToken cfg st now freshRT req = .ok (res, st2) →
      ∃ tok, st2.tokens.getLast? = some tok ∧ tok.refreshToken = freshRT ∧
        tok.expiresAt ≤ tok.refreshExpiresAt) ∧
    devConfig.tokenExp ≤ devConfig.refreshExp ∧
    prodConfig.tokenExp ≤ prodConfig.refreshExp := by
  refine ⟨?_, by decide, by decide⟩
  intro cfg st now freshRT req res st2 hexp hg h
  obtain ⟨client, hc, hcg, hcase⟩ := generateToken_ok_cases _ _ _ _ _ _ _ h
  rcases hcase with ⟨hgp, hp⟩ | ⟨hgr, hr⟩ | ⟨hgc, hcc⟩
  · obtain ⟨user, hvc, hres, htok⟩ := handlePasswordGrant_ok _ _ _ _ _ _ _ _ _ hp
    rw [htok, List.getLast?_concat]
    exact ⟨_, rfl, rfl, Nat.add_le_add_left hexp now⟩
  · obtain ⟨hne, oldTok, hvr, hcl, hres, htok⟩ :=
      handleRefreshTokenGrant_ok _ _ _ _ _ _ _ _ _ hr
    rw [htok, List.getLast?_concat]
    exact ⟨_, rfl, rfl, Nat.add_le_add_left hexp now⟩
  · rcases hg with hgp | hgr
    · rw [hgp] at hgc
      exact absurd hgc (by decide)
    · rw [hgr] at hgc
      exact absurd hgc (by decide)

/-- Witness for C7 at a concrete input: the pair minted by the password
grant of `exState1`. -/
theorem minted_pair_expiry_invariant_witness :
    ∃ tok, exState1.tokens.getLast? = some tok ∧ tok.refreshToken = "rt0" ∧
      tok.expiresAt ≤ tok.refreshExpiresAt :=
  minted_pair_expiry_invariant.1 devConfig exState0 100 "rt0" exReqPwd exRes1
    exState1 (by decide) (Or.inl rfl) (by rfl)


/-! ## Scope computation -/

/-- Membership in the requested-and-allowed filter. -/
theorem mem_requestedScopes (reqScope : String) (client : Client) (s : String)
    (h1 : reqScope ≠ "") :
    s ∈ requestedScopes reqScope client ↔
      s ∈ splitOnSpace reqScope ∧ s ∈ client.scopes := by
  unfold requestedScopes
  rw [if_pos h1, List.mem_filter]
  simp

/-- The scopes computed by `GenerateToken` never leave the client's
allowed-scope list. -/
theorem computeScopes_subset (reqScope : String) (client : Client) :
    ∀ s ∈ computeScopes reqScope client, s ∈ client.scopes := by
  intro s hs
  unfold computeScopes at hs
  split at hs
  case isTrue hempty => exact hs
  case isFalse hempty =>
    unfold requestedScopes at hs
    split at hs
    case isTrue h1 =>
      have := List.mem_filter.mp hs
      simpa using this.2
    case isFalse h1 => simp at hs

/-- When a non-empty scope string yields a non-empty intersection with the
client's allowance, `GenerateToken` keeps exactly that intersection. -/
theorem computeScopes_eq_filter (reqScope : String) (client : Client)
    (h1 : reqScope ≠ "")
    (h2 : (splitOnSpace reqScope).filter (fun s => client.scopes.contains s) ≠ []) :
    computeScopes reqScope client
      = (splitOnSpace reqScope).filter (fun s => client.scopes.contains s) := by
  have hrs : requestedScopes reqScope client
      = (splitOnSpace reqScope).filter (fun s => client.scopes.contains s) := by
    unfold requestedScopes
    rw [if_pos h1]
  unfold computeScopes
  rw [hrs, if_neg (by simpa using h2)]

/-- When the scope string is empty or nothing requested is allowed,
`GenerateToken` falls back to the client's full allowance. -/
theorem computeScopes_eq_default (reqScope : String) (client : Client)
    (h : reqScope = "" ∨
      (splitOnSpace reqScope).filter (fun s => client.scopes.contains s) = []) :
    computeScopes reqScope client = client.scopes := by
  unfold computeScopes
  rcases h with h | h
  · have hrs : requestedScopes reqScope client = [] := by
      unfold requestedScopes
      rw [if_neg (by simpa using h)]
    rw [hrs, if_pos (by simp)]
  · by_cases h1 : reqScope = ""
    · have hrs : requestedScopes reqScope client = [] := by
        unfold requestedScopes
        rw [if_neg (by simpa using h1)]
      rw [hrs, if_pos (by simp)]
    · have hrs : requestedScopes reqScope client = [] := by
        unfold requestedScopes
        rw [if_pos h1, h]
      rw [hrs, if_pos (by simp)]

/-- Unfolding a refresh-token store lookup success. -/
theorem getByRefreshToken_ok (tokens : List Token) (rt : String) (tok : Token)
    (h : getByRefreshToken tokens rt = .ok tok) :
    tok ∈ tokens ∧ tok.refreshToken = rt := by
  unfold getByRefreshToken at h
  cases hf : tokens.find? (fun t => t.refreshToken == rt) with
  | some t =>
    rw [hf] at h
    simp only [Except.ok.injEq] at h
    subst h
    refine ⟨List.mem_of_find?_eq_some hf, ?_⟩
    have hp := List.find?_some hf
    simpa using hp
  | none =>
    rw [hf] at h
    simp at h

/-- A successful `ValidateRefreshToken` returns a stored pair keyed by the
given refresh token whose refresh expiry has not passed. -/
theorem validateRefreshToken_ok (st : SysState) (now : Nat) (rt : String)
    (tok : Token) (h : validateRefreshToken st now rt = .ok tok) :
    tok ∈ st.tokens ∧ tok.refreshToken = rt ∧ ¬ tok.refreshExpiresAt < now := by
  unfold validateRefreshToken at h
  cases hg : getByRefreshToken st.tokens rt with
  | error e =>
    rw [hg] at h
    simp at h
  | ok t =>
    simp only [hg] at h
    split at h
    case isTrue hexp => simp at h
    case isFalse hexp =>
      split at h
      case isTrue huid =>
        cases hu : getUserByID st.users t.userID with
        | error e =>
          rw [hu] at h
          simp at h
        | ok u =>
          simp only [hu] at h
          split at h
          case isTrue => simp at h
          case isFalse =>
            simp only [Except.ok.injEq] at h
            subst h
            exact ⟨(getByRefreshToken_ok _ _ _ hg).1,
              (getByRefreshToken_ok _ _ _ hg).2, hexp⟩
      case isFalse huid =>
        simp only [Except.ok.injEq] at h
        subst h
        exact ⟨(getByRefreshToken_ok _ _ _ hg).1,
          (getByRefreshToken_ok _ _ _ hg).2, hexp⟩

/-- C4: under the invariant that stored pairs of the authenticated client
never exceed its current allowance, every successful grant mints a pair
whose scope list is a subset of the client's allowed scopes; it is exactly
the requested-with-allowed intersection when that intersection is non-empty,
and exactly the client's full allowance when the request was empty or
entirely disallowed. -/
theorem granted_scopes_spec (cfg : OAuthConfig) (st : SysState) (now : Nat)
    (freshRT : String) (req : OAuthRequest) (client : Client)
    (res : OAuthResponse) (st2 : SysState)
    (hc : validateClient st.clients req.clientID req.clientSecret = .ok client)
    (hinv : ∀ t ∈ st.tokens, t.clientID = client.clientID →
      ∀ s ∈ t.scopes, s ∈ client.scopes)
    (h : generateToken cfg st now freshRT req = .ok (res, st2)) :
    ∃ tok, st2.tokens.getLast? = some tok ∧
      (∀ s ∈ tok.scopes, s ∈ client.scopes) ∧
      (req.scope ≠ "" →
        (splitOnSpace req.scope).filter (fun s => client.scopes.contains s) ≠ [] →
        ∀ s, s ∈ tok.scopes ↔ s ∈ splitOnSpace req.scope ∧ s ∈ client.scopes) ∧
      ((req.scope = "" ∨
          (splitOnSpace req.scope).filter (fun s => client.scopes.contains s) = []) →
        tok.scopes = client.scopes) := by
  obtain ⟨client2, hc2, hcg, hcase⟩ := generateToken_ok_cases _ _ _ _ _ _ _ h
  have hcceq : client2 = client := by
    rw [hc] at hc2
    simpa using hc2.symm
  rw [hcceq] at hcase
  have hfilter : ∀ s, s ∈ (splitOnSpace req.scope).filter
      (fun s => client.scopes.contains s) ↔
        s ∈ splitOnSpace req.scope ∧ s ∈ client.scopes := by
    intro s
    rw [List.mem_filter]
    simp
  rcases hcase with ⟨hgp, hp⟩ | ⟨hgr, hr⟩ | ⟨hgc, hcc⟩
  · obtain ⟨user, hvc, hres, htok⟩ := handlePasswordGrant_ok _ _ _ _ _ _ _ _ _ hp
    rw [htok, List.getLast?_concat]
    refine ⟨_, rfl, computeScopes_subset _ _, ?_, ?_⟩
    · intro hne hnef s
      show s ∈ computeScopes req.scope client ↔ _
      rw [computeScopes_eq_filter req.scope client hne hnef]
      exact hfilter s
    · intro hdef
      show computeScopes req.scope client = client.scopes
      exact computeScopes_eq_default req.scope client hdef
  · obtain ⟨hne0, oldTok, hvr, hcl, hres, htok⟩ :=
      handleRefreshTokenGrant_ok _ _ _ _ _ _ _ _ _ hr
    obtain ⟨hold_mem, hold_rt, hold_exp⟩ := validateRefreshToken_ok _ _ _ _ hvr
    have holdsub : ∀ s ∈ oldTok.scopes, s ∈ client.scopes :=
      hinv oldTok hold_mem hcl
    rw [htok, List.getLast?_concat]
    by_cases hemp : (computeScopes req.scope client).isEmpty = true
    · have hce : computeScopes req.scope client = [] := by
        simpa using hemp
      rw [hemp, if_pos rfl]
      have hclempty : client.scopes = [] := by
        by_cases hq1 : req.scope = ""
        · rw [← computeScopes_eq_default req.scope client (Or.inl hq1)]
          exact hce
        · by_cases hq2 : (splitOnSpace req.scope).filter
              (fun s => client.scopes.contains s) = []
          · rw [← computeScopes_eq_default req.scope client (Or.inr hq2)]
            exact hce
          · rw [computeScopes_eq_filter req.scope client hq1 hq2] at hce
            exact absurd hce hq2
      have holdnil : oldTok.scopes = [] := by
        rw [List.eq_nil_iff_forall_not_mem]
        intro s hs
        have hmem := holdsub s hs
        rw [hclempty] at hmem
        simp at hmem
      refine ⟨_, rfl, ?_, ?_, ?_⟩
      · intro s hs
        exact holdsub s hs
      · intro hq1 hq2
        exfalso
        apply hq2
        rw [← computeScopes_eq_filter req.scope client hq1 hq2]
        exact hce
      · intro hdef
        show oldTok.scopes = client.scopes
        rw [holdnil, hclempty]
    · rw [Bool.not_eq_true] at hemp
      rw [hemp, if_neg (by simp)]
      refine ⟨_, rfl, computeScopes_subset _ _, ?_, ?_⟩
      · intro hq1 hq2 s
        show s ∈ computeScopes req.scope client ↔ _
        rw [computeScopes_eq_filter req.scope client hq1 hq2]
        exact hfilter s
      · intro hdef
        show computeScopes req.scope client = client.scopes
        exact computeScopes_eq_default req.scope client hdef
  · obtain ⟨hres, htok⟩ := handleClientCredentialsGrant_ok _ _ _ _ _ _ _ hcc
    rw [htok, List.getLast?_concat]
    refine ⟨_, rfl, computeScopes_subset _ _, ?_, ?_⟩
    · intro hq1 hq2 s
      show s ∈ computeScopes req.scope client ↔ _
      rw [computeScopes_eq_filter req.scope client hq1 hq2]
      exact hfilter s
    · intro hdef
      show computeScopes req.scope client = client.scopes
      exact computeScopes_eq_default req.scope client hdef

/-- Witness for C4 at a concrete input: the password grant of `exState1`
requested `"read"` and was granted exactly `{read}`, the intersection with
the allowance `{read, write}`. -/
theorem granted_scopes_spec_witness :
    ∃ tok, exState1.tokens.getLast? = some tok ∧
      (∀ s ∈ tok.scopes, s ∈ exClient.scopes) ∧
      (exReqPwd.scope ≠ "" →
        (splitOnSpace exReqPwd.scope).filter
          (fun s => exClient.scopes.contains s) ≠ [] →
        ∀ s, s ∈ tok.scopes ↔
          s ∈ splitOnSpace exReqPwd.scope ∧ s ∈ exClient.scopes) ∧
      ((exReqPwd.scope = "" ∨
          (splitOnSpace exReqPwd.scope).filter
            (fun s => exClient.scopes.contains s) = []) →
        tok.scopes = exClient.scopes) :=
  granted_scopes_spec devConfig exState0 100 "rt0" exReqPwd exClient exRes1
    exState1 (by rfl) (by decide) (by rfl)


/-! ## Refresh-grant scope reuse (C5) -/

/-- C5: the code does NOT reuse the old pair's scopes on a scope-less
refresh.  `GenerateToken` falls back to the client's full allowance before
the handler runs, so the handler's own "reuse the old scopes" fallback only
fires when the client's allowance is empty.  Concretely: rotating a pair
whose scopes are `[read]`, with no scope requested, under a client allowing
`[read, write]`, mints a pair with scopes `[read, write]` — the claim's
"granted ⊆ old scopes, equal when none requested" fails (`write` is granted
but was not in the old pair's scopes). -/
theorem refresh_scope_widening :
    ∃ res st2, generateToken devConfig exStateScope 200 "rt1" exReqRef0
        = .ok (res, st2) ∧
      exTokRead.scopes = ["read"] ∧
      res.accessToken.claims.scopes = ["read", "write"] ∧
      st2.tokens.map (fun t => t.scopes) = [["read", "write"]] ∧
      "write" ∉ exTokRead.scopes :=
  ⟨_, _, rfl, rfl, rfl, rfl, by decide⟩

/-! ## Refresh-grant failure order (C6) -/

/-- Counterexample to C6's check order: on a pair whose stored client id
differs from the authenticating client AND whose subject is inactive, the
code reports the inactive-subject error, not the client-mismatch error the
claim's order predicts, because the subject checks live inside
`ValidateRefreshToken`, which runs before the handler's client comparison. -/
theorem refresh_failure_order_counterexample :
    generateToken devConfig exStateOrder 200 "rt9" exReqRefF
        = .error "usuario inactivo" ∧
      exTokForeign.clientID ≠ exClient.clientID ∧
      exUserInactive.status ≠ userStatusActive ∧
      exTokForeign.refreshToken = exReqRefF.refreshToken ∧
      ¬ exTokForeign.refreshExpiresAt < 200 :=
  ⟨rfl, by decide, by decide, rfl, by decide⟩

/-- Under the stated preconditions, `GenerateToken` dispatches a
refresh_token request to `handleRefreshTokenGrant`. -/
theorem generateToken_refresh_dispatch (cfg : OAuthConfig) (st : SysState)
    (now : Nat) (freshRT : String) (req : OAuthRequest) (client : Client)
    (hc : validateClient st.clients req.clientID req.clientSecret = .ok client)
    (hcg : client.grantTypes.contains req.grantType = true)
    (hgr : req.grantType = grantTypeRefreshToken) :
    generateToken cfg st now freshRT req
      = handleRefreshTokenGrant cfg st now freshRT req client
          (computeScopes req.scope client) := by
  unfold generateToken
  simp only [hc]
  rw [if_neg (by rw [hcg]; simp), hgr]
  rw [if_neg (by decide), if_pos rfl]

/-- C6 (amended): a refresh_token grant fails, in this order of checks,
when the refresh token is absent from the store (invalid-grant error); when
`now > refresh-expiry` (expired-grant error); when an associated subject id
is present but does not resolve (subject-not-found error) or resolves to a
non-active subject (inactive-subject error); and only then, when the stored
client id differs from the authenticating client (client-mismatch error).
On each failure the handler returns before its first repository write, so
the old pair remains in the store unchanged (errors carry no successor
state in this embedding). -/
theorem refresh_failure_order (cfg : OAuthConfig) (st : SysState) (now : Nat)
    (freshRT : String) (req : OAuthRequest) (client : Client)
    (hc : validateClient st.clients req.clientID req.clientSecret = .ok client)
    (hcg : client.grantTypes.contains req.grantType = true)
    (hgr : req.grantType = grantTypeRefreshToken)
    (hne : req.refreshToken ≠ "") :
    (∀ e, getByRefreshToken st.tokens req.refreshToken = .error e →
      generateToken cfg st now freshRT req
        = .error "refresh token inválido o no encontrado") ∧
    (∀ tok, getByRefreshToken st.tokens req.refreshToken = .ok tok →
      tok.refreshExpiresAt < now →
      generateToken cfg st now freshRT req = .error "refresh token expirado") ∧
    (∀ tok, getByRefreshToken st.tokens req.refreshToken = .ok tok →
      ¬ tok.refreshExpiresAt < now → tok.userID ≠ "" →
      ∀ e, getUserByID st.users tok.userID = .error e →
      generateToken cfg st now freshRT req = .error "usuario no encontrado") ∧
    (∀ tok u, getByRefreshToken st.tokens req.refreshToken = .ok tok →
      ¬ tok.refreshExpiresAt < now → tok.userID ≠ "" →
      getUserByID st.users tok.userID = .ok u →
      u.status ≠ userStatusActive →
      generateToken cfg st now freshRT req = .error "usuario inactivo") ∧
    (∀ tok, getByRefreshToken st.tokens req.refreshToken = .ok tok →
      ¬ tok.refreshExpiresAt < now →
      (tok.userID = "" ∨ ∃ u, getUserByID st.users tok.userID = .ok u ∧
        u.status = userStatusActive) →
      tok.clientID ≠ client.clientID →
      generateToken cfg st now freshRT req
        = .error "refresh token no válido para este cliente") := by
  have hdis := generateToken_refresh_dispatch cfg st now freshRT req client hc hcg hgr
  refine ⟨?_, ?_, ?_, ?_, ?_⟩
  · intro e hg
    rw [hdis]
    unfold handleRefreshTokenGrant
    rw [if_neg hne]
    have hv : validateRefreshToken st now req.refreshToken
        = .error "refresh token inválido o no encontrado" := by
      unfold validateRefreshToken
      rw [hg]
    rw [hv]
  · intro tok hg hexp
    rw [hdis]
    unfold handleRefreshTokenGrant
    rw [if_neg hne]
    have hv : validateRefreshToken st now req.refreshToken
        = .error "refresh token expirado" := by
      unfold validateRefreshToken
      simp only [hg]
      rw [if_pos hexp]
    rw [hv]
  · intro tok hg hexp huid e hu
    rw [hdis]
    unfold handleRefreshTokenGrant
    rw [if_neg hne]
    have hv : validateRefreshToken st now req.refreshToken
        = .error "usuario no encontrado" := by
      unfold validateRefreshToken
      simp only [hg]
      rw [if_neg hexp, if_pos huid, hu]
    rw [hv]
  · intro tok u hg hexp huid hu hst
    rw [hdis]
    unfold handleRefreshTokenGrant
    rw [if_neg hne]
    have hv : validateRefreshToken st now req.refreshToken
        = .error "usuario inactivo" := by
      unfold validateRefreshToken
      simp only [hg]
      rw [if_neg hexp, if_pos huid]
      simp only [hu]
      rw [if_pos hst]
    rw [hv]
  · intro tok hg hexp hact hcl
    rw [hdis]
    unfold handleRefreshTokenGrant
    rw [if_neg hne]
    have hv : validateRefreshToken st now req.refreshToken = .ok tok := by
      unfold validateRefreshToken
      simp only [hg]
      rw [if_neg hexp]
      rcases hact with hact | ⟨u, hu, hst⟩
      · rw [if_neg (by simpa using hact)]
      · by_cases huid : tok.userID ≠ ""
        · rw [if_pos huid]
          simp only [hu]
          rw [if_neg (by simp [hst])]
        · rw [if_neg huid]
    simp only [hv]
    rw [if_pos hcl]

/-- Witness for the amended C6 at a concrete input: a refresh token absent
from the store fails with the invalid-grant error. -/
theorem refresh_failure_order_witness :
    generateToken devConfig exState0 0 "x"
        { grantType := "refresh_token", clientID := "c1", clientSecret := "s1",
          username := "", password := "", refreshToken := "nope", scope := "" }
      = .error "refresh token inválido o no encontrado" :=
  (refresh_failure_order devConfig exState0 0 "x"
      { grantType := "refresh_token", clientID := "c1", clientSecret := "s1",
        username := "", password := "", refreshToken := "nope", scope := "" }
      exClient (by rfl) (by decide) (by rfl) (by decide)).1
    "token no encontrado" (by rfl)


/-! ## Role claims of minted access tokens (C10) -/

/-- Counterexample to C10's closing clause: subject `u1` has the non-empty
role `admin`, yet rotating the pair of `exState2` — itself refresh-minted,
so its access token already carries the empty role claim — produces an
access token whose role claim equals (not differs from) the one it
replaces: both are `""`. -/
theorem refresh_role_claim_counterexample :
    ∃ res st3 oldTok,
      exState2.users.map (fun u => u.role) = ["admin"] ∧
      validateRefreshToken exState2 300 "rt1" = .ok oldTok ∧
      oldTok.accessToken.claims.role = "" ∧
      generateToken devConfig exState2 300 "rt2" exReqRef1 = .ok (res, st3) ∧
      res.accessToken.claims.role = oldTok.accessToken.claims.role :=
  ⟨_, _, _, rfl, rfl, rfl, rfl, rfl⟩

/-- C10 (amended): a refresh-minted access token always embeds the empty
role claim regardless of the subject's actual role; a password-minted one
embeds the authenticated subject's role; a client-credentials one embeds
the literal `"client"`.  Hence rotation via refresh changes the role claim
whenever the replaced access token carried a non-empty role claim (as a
password-minted one with a non-empty subject role does); rotating an
already refresh-minted pair keeps the empty claim. -/
theorem minted_role_claims :
    (∀ cfg st now freshRT req res st2,
      req.grantType = grantTypeRefreshToken →
      generateToken cfg st now freshRT req = .ok (res, st2) →
      res.accessToken.claims.role = "" ∧
      (∀ oldTok, validateRefreshToken st now req.refreshToken = .ok oldTok →
        oldTok.accessToken.claims.role ≠ "" →
        res.accessToken.claims.role ≠ oldTok.accessToken.claims.role)) ∧
    (∀ cfg st now freshRT req res st2,
      req.grantType = grantTypePassword →
      generateToken cfg st now freshRT req = .ok (res, st2) →
      ∃ user, validateCredentials st.users req.username req.password = .ok user ∧
        res.accessToken.claims.role = user.role) ∧
    (∀ cfg st now freshRT req res st2,
      req.grantType = grantTypeClientCredentials →
      generateToken cfg st now freshRT req = .ok (res, st2) →
      res.accessToken.claims.role = "client") := by
  refine ⟨?_, ?_, ?_⟩
  · intro cfg st now freshRT req res st2 hgr h
    obtain ⟨client, hc, hcg, hcase⟩ := generateToken_ok_cases _ _ _ _ _ _ _ h
    rcases hcase with ⟨hgp, _⟩ | ⟨_, hr⟩ | ⟨hgc, _⟩
    · rw [hgr] at hgp
      exact absurd hgp (by decide)
    · obtain ⟨hne, oldTok, hvr, hcl, hres, htok⟩ :=
        handleRefreshTokenGrant_ok _ _ _ _ _ _ _ _ _ hr
      have hrole : res.accessToken.claims.role = "" := by
        rw [hres]
        rfl
      refine ⟨hrole, ?_⟩
      intro oldTok2 hvr2 hne2
      rw [hrole]
      exact fun hEq => hne2 hEq.symm
    · rw [hgr] at hgc
      exact absurd hgc (by decide)
  · intro cfg st now freshRT req res st2 hgp h
    obtain ⟨client, hc, hcg, hcase⟩ := generateToken_ok_cases _ _ _ _ _ _ _ h
    rcases hcase with ⟨_, hp⟩ | ⟨hgr, _⟩ | ⟨hgc, _⟩
    · obtain ⟨user, hvc, hres, htok⟩ := handlePasswordGrant_ok _ _ _ _ _ _ _ _ _ hp
      refine ⟨user, hvc, ?_⟩
      rw [hres]
      rfl
    · rw [hgp] at hgr
      exact absurd hgr (by decide)
    · rw [hgp] at hgc
      exact absurd hgc (by decide)
  · intro cfg st now freshRT req res st2 hgc h
    obtain ⟨client, hc, hcg, hcase⟩ := generateToken_ok_cases _ _ _ _ _ _ _ h
    rcases hcase with ⟨hgp, _⟩ | ⟨hgr, _⟩ | ⟨_, hcc⟩
    · rw [hgc] at hgp
      exact absurd hgp (by decide)
    · rw [hgc] at hgr
      exact absurd hgr (by decide)
    · obtain ⟨hres, htok⟩ := handleClientCredentialsGrant_ok _ _ _ _ _ _ _ hcc
      rw [hres]
      rfl

/-- Witness for the amended C10 at a concrete input: the rotation recorded
in `exState2` minted an access token with the empty role claim. -/
theorem minted_role_claims_witness :
    ∃ res2 : OAuthResponse × SysState,
      generateToken devConfig exState1 200 "rt1" exReqRef0 = .ok res2 ∧
      res2.1.accessToken.claims.role = "" :=
  ⟨(exRes2, exState2),
    by rfl,
    (minted_role_claims.1 devConfig exState1 200 "rt1" exReqRef0 exRes2 exState2
      (by rfl) (by rfl)).1⟩

end GoTest
